import Mathlib

set_option maxHeartbeats 1000000

/-
Verification of the cartographer_ros occupancy-grid node
(occupancy_grid_node_main.cc) against its natural-language specification.

The C++ source is shallowly embedded below.  Machine integers are modelled
as Nat/Int (with explicit wrap-around where size_t underflow matters),
doubles as exact rationals, fallible operations (vector::at, CHECK
failures, out-of-bounds accesses) as Option, and the cairo surface of a
submap as an optional pixel-word buffer.  Rigid 3D transforms store their
rotation as an explicit 3x3 matrix (cartographer stores a quaternion; only
the matrix of the composed transform is ever read by this file's code).
-/

/-- Rounding used by cartographer's common::RoundToInt (std::lround) on the
nonnegative arguments produced in this file: floor of the value plus one
half. -/
def roundToInt (q : ℚ) : ℤ := ⌊q + 1 / 2⌋

/-- Probability percent of a color byte: RoundToInt((1. - color / 255.) * 100.),
the expression appearing verbatim in Node::PublishOccupancyGrid and in the
spec as round((1 - color/255) * 100). -/
def probabilityPercent (color : ℕ) : ℤ :=
  roundToInt ((1 - (color : ℚ) / 255) * 100)

/-- Quantization of one flushed-canvas pixel, mirroring the per-pixel body
of Node::PublishOccupancyGrid: extract the color byte (bits 16..23) and the
observed byte (bits 8..15); unobserved pixels give -1, otherwise the
rounded probability percent is computed, CHECK-verified to lie in [-1,100]
(none models the fatal CHECK failure) and thresholded at 50. -/
def quantizePixel (packed : ℕ) : Option ℤ :=
  let color : ℕ := (packed >>> 16) % 256
  let observed : ℕ := (packed >>> 8) % 256
  let value : ℤ := if observed = 0 then -1 else probabilityPercent color
  if -1 ≤ value ∧ value ≤ 100 then
    some (if 50 < value then 100 else if value ≠ -1 then 0 else -1)
  else none

/-- Total value function of the quantizer (the CHECKs never fire); the
shared lemma quantizePixel_eq_quantVal proves quantizePixel computes it. -/
def quantVal (packed : ℕ) : ℤ :=
  if (packed >>> 8) % 256 = 0 then -1
  else if (50 : ℤ) < probabilityPercent ((packed >>> 16) % 256) then 100 else 0

lemma probabilityPercent_nonneg (c : ℕ) (hc : c < 256) :
    0 ≤ probabilityPercent c := by
  have hc' : (c : ℚ) ≤ 255 := by exact_mod_cast Nat.lt_succ_iff.mp hc
  apply Int.floor_nonneg.mpr
  nlinarith

lemma probabilityPercent_le (c : ℕ) : probabilityPercent c ≤ 100 := by
  have hc0 : (0 : ℚ) ≤ (c : ℚ) := by positivity
  have h1 : (1 - (c : ℚ) / 255) * 100 + 1 / 2 < ((101 : ℤ) : ℚ) := by
    push_cast
    nlinarith
  have h2 : probabilityPercent c < 101 := Int.floor_lt.mpr h1
  omega

lemma quantizePixel_eq_quantVal (packed : ℕ) :
    quantizePixel packed = some (quantVal packed) := by
  unfold quantizePixel quantVal
  by_cases hobs : (packed >>> 8) % 256 = 0
  · simp [hobs]
  · have hlt : (packed >>> 16) % 256 < 256 := Nat.mod_lt _ (by norm_num)
    have h0 : 0 ≤ probabilityPercent ((packed >>> 16) % 256) :=
      probabilityPercent_nonneg _ hlt
    have h100 : probabilityPercent ((packed >>> 16) % 256) ≤ 100 :=
      probabilityPercent_le _
    simp only [hobs, if_false]
    rw [if_pos (by omega)]
    by_cases h50 : (50 : ℤ) < probabilityPercent ((packed >>> 16) % 256)
    · rw [if_pos h50, if_pos h50]
    · rw [if_neg h50, if_neg h50, if_pos (by omega)]

/-- Observed-flag computation of Node::HandleSubmapList: a cell counts as
never observed exactly when both its intensity and its alpha are zero. -/
def observedFlag (intensity alpha : ℕ) : ℕ :=
  if intensity = 0 ∧ alpha = 0 then 0 else 255

/-- Packed ARGB32 pixel word pushed into cairo_data:
(alpha shifted 24) or (intensity shifted 16) or (observed shifted 8) or 0. -/
def packPixel (intensity alpha : ℕ) : ℕ :=
  (alpha <<< 24) ||| (intensity <<< 16) ||| (observedFlag intensity alpha <<< 8) ||| 0

/-- Pixel-buffer construction loop of Node::HandleSubmapList: index i runs
over the intensity vector; vector::at on the alpha vector throws (none) if
the alpha vector is shorter. -/
def buildCairoData (intensity alpha : List ℕ) : Option (List ℕ) :=
  (List.range intensity.length).mapM fun i =>
    match intensity[i]?, alpha[i]? with
    | some ii, some aa => some (packPixel ii aa)
    | _, _ => none

lemma mapM_option_eq_map {α β : Type} (g : α → Option β) (f : α → β) :
    ∀ l : List α, (∀ a ∈ l, g a = some (f a)) → l.mapM g = some (l.map f) := by
  intro l
  induction l with
  | nil => intro _; rfl
  | cons a t ih =>
    intro h
    rw [List.mapM_cons, h a (by simp), List.map_cons]
    have := ih (fun b hb => h b (by simp [hb]))
    rw [this]
    rfl

lemma getElem?_eq_some_getD {α : Type} (l : List α) (k : ℕ) (d : α)
    (h : k < l.length) : l[k]? = some (l.getD k d) := by
  rw [List.getElem?_eq_getElem h]
  simp [List.getD_eq_getElem?_getD, List.getElem?_eq_getElem h]

lemma probabilityPercent_127 : probabilityPercent 127 = 50 := by
  have h : (1 - ((127 : ℕ) : ℚ) / 255) * 100 + 1 / 2 =
      ((5171 : ℤ) : ℚ) / ((102 : ℕ) : ℚ) := by push_cast; norm_num
  simp only [probabilityPercent, roundToInt]
  rw [h, Rat.floor_intCast_div_natCast]
  decide

lemma probabilityPercent_126 : probabilityPercent 126 = 51 := by
  have h : (1 - ((126 : ℕ) : ℚ) / 255) * 100 + 1 / 2 =
      ((5211 : ℤ) : ℚ) / ((102 : ℕ) : ℚ) := by push_cast; norm_num
  simp only [probabilityPercent, roundToInt]
  rw [h, Rat.floor_intCast_div_natCast]
  decide

/-- Claim C1: for every pixel of the flushed canvas, PublishOccupancyGrid
yields -1 when the observed byte (bits 8..15) is 0; otherwise, with
probabilityPercent = round((1 - color/255) * 100) of the color byte
(bits 16..23), it yields 100 exactly when probabilityPercent > 50 and 0
otherwise (the CHECK bounds never fire).  In particular probabilityPercent
50 (color 127) yields a free cell and 51 (color 126) an occupied one. -/
theorem C1_quantization_policy (packed : ℕ) :
    quantizePixel packed =
      some (if (packed >>> 8) % 256 = 0 then -1
        else if (50 : ℤ) < probabilityPercent ((packed >>> 16) % 256) then 100 else 0) ∧
    probabilityPercent 127 = 50 ∧
    quantizePixel (127 * 65536 + 255 * 256) = some 0 ∧
    probabilityPercent 126 = 51 ∧
    quantizePixel (126 * 65536 + 255 * 256) = some 100 := by
  refine ⟨quantizePixel_eq_quantVal packed, probabilityPercent_127, ?_, probabilityPercent_126, ?_⟩
  · rw [quantizePixel_eq_quantVal]
    have h1 : ((127 * 65536 + 255 * 256 : ℕ) >>> 8) % 256 = 255 := by decide
    have h2 : ((127 * 65536 + 255 * 256 : ℕ) >>> 16) % 256 = 127 := by decide
    rw [quantVal, h1, h2, probabilityPercent_127]
    norm_num
  · rw [quantizePixel_eq_quantVal]
    have h1 : ((126 * 65536 + 255 * 256 : ℕ) >>> 8) % 256 = 255 := by decide
    have h2 : ((126 * 65536 + 255 * 256 : ℕ) >>> 16) % 256 = 126 := by decide
    rw [quantVal, h1, h2, probabilityPercent_126]
    norm_num

/-- Claim C2: the cache update builds the raster word for pixel k of a
fetched texture as (alpha shifted 24) or (intensity shifted 16) or
(observed shifted 8), where the observed byte is 0 exactly when both the
intensity and the alpha byte are 0, and 255 for every other pair. -/
theorem C2_raster_word (intensity alpha : List ℕ)
    (hlen : intensity.length ≤ alpha.length) (k : ℕ) (hk : k < intensity.length) :
    ∃ l ii aa, buildCairoData intensity alpha = some l ∧
      intensity[k]? = some ii ∧ alpha[k]? = some aa ∧
      l[k]? = some ((aa <<< 24) ||| (ii <<< 16) ||| (observedFlag ii aa <<< 8)) ∧
      (observedFlag ii aa = 0 ↔ ii = 0 ∧ aa = 0) ∧
      (¬(ii = 0 ∧ aa = 0) → observedFlag ii aa = 255) := by
  have hka : k < alpha.length := lt_of_lt_of_le hk hlen
  have hmap : buildCairoData intensity alpha =
      some ((List.range intensity.length).map fun i =>
        packPixel (intensity.getD i 0) (alpha.getD i 0)) := by
    apply mapM_option_eq_map
    intro i hi
    rw [List.mem_range] at hi
    have hia : i < alpha.length := lt_of_lt_of_le hi hlen
    rw [getElem?_eq_some_getD intensity i 0 hi, getElem?_eq_some_getD alpha i 0 hia]
  refine ⟨_, intensity.getD k 0, alpha.getD k 0, hmap, ?_, ?_, ?_, ?_, ?_⟩
  · exact getElem?_eq_some_getD intensity k 0 hk
  · exact getElem?_eq_some_getD alpha k 0 hka
  · simp [List.getElem?_map, List.getElem?_range hk, packPixel, Nat.or_zero]
  · constructor
    · intro h
      by_contra hc
      rw [observedFlag, if_neg hc] at h
      omega
    · intro h
      rw [observedFlag, if_pos h]
  · intro h
    rw [observedFlag, if_neg h]

/-- Claim C2 witness: a concrete texture with a never-observed pixel at
index 0 and an observed one at index 1. -/
theorem C2_raster_word_witness :
    ∃ l ii aa, buildCairoData [0, 7] [0, 9] = some l ∧
      [0, 7][0]? = some ii ∧ [0, 9][0]? = some aa ∧
      l[0]? = some ((aa <<< 24) ||| (ii <<< 16) ||| (observedFlag ii aa <<< 8)) ∧
      (observedFlag ii aa = 0 ↔ ii = 0 ∧ aa = 0) ∧
      (¬(ii = 0 ∧ aa = 0) → observedFlag ii aa = 255) :=
  C2_raster_word [0, 7] [0, 9] (by decide) 0 (by decide)

/-- Occupancy-grid message (nav_msgs::OccupancyGrid) restricted to the
fields written by Node::PublishOccupancyGrid: metadata plus the row-major
int8 data array. -/
structure OccupancyGrid where
  resolution : ℚ
  width : ℕ
  height : ℕ
  originX : ℚ
  originY : ℚ
  originZ : ℚ
  orientW : ℚ
  orientX : ℚ
  orientY : ℚ
  orientZ : ℚ
  data : List ℤ
deriving DecidableEq

/-- Pixel words of the flushed canvas in the order in which the publishing
loop reads them: rows from bottom (y = height - 1) to top (y = 0), columns
left to right; pixels is the raw surface buffer. -/
def canvasRowMajor (W H : ℕ) (pixels : ℕ → ℕ) : List ℕ :=
  (List.range H).reverse.flatMap fun y => (List.range W).map fun x => pixels (y * W + x)

/-- Node::PublishOccupancyGrid: emit metadata (resolution, origin derived
from the canvas origin offset, identity orientation) plus the quantized
data array; none models a fatal CHECK failure while quantizing. -/
def PublishOccupancyGrid (res : ℚ) (origin : ℚ × ℚ) (W H : ℕ)
    (pixels : ℕ → ℕ) : Option OccupancyGrid :=
  match (canvasRowMajor W H pixels).mapM quantizePixel with
  | none => none
  | some d =>
    some { resolution := res, width := W, height := H,
           originX := -origin.1 * res,
           originY := (-(H : ℚ) + origin.2) * res,
           originZ := 0,
           orientW := 1, orientX := 0, orientY := 0, orientZ := 0,
           data := d }

lemma flatMap_row_getElem? {β : Type} (W : ℕ) (f : ℕ → ℕ → β) :
    ∀ (rows : List ℕ) (r c : ℕ), r < rows.length → c < W →
      (rows.flatMap fun y => (List.range W).map (f y))[r * W + c]? =
        some (f (rows.getD r 0) c) := by
  intro rows
  induction rows with
  | nil => intro r c hr _; simp at hr
  | cons y t ih =>
    intro r c hr hc
    rw [List.flatMap_cons]
    cases r with
    | zero =>
      rw [List.getElem?_append, if_pos (by simpa using hc)]
      simp [List.getElem?_map, List.getElem?_range hc]
    | succ r' =>
      have hlen : ((List.range W).map (f y)).length = W := by simp
      have hidx : (r' + 1) * W + c = W + (r' * W + c) := by ring
      rw [hidx, List.getElem?_append_right (by omega)]
      rw [hlen]
      have : W + (r' * W + c) - W = r' * W + c := by omega
      rw [this]
      simp only [List.length_cons] at hr
      exact ih r' c (by omega) hc

lemma range_reverse_getD (H r : ℕ) (hr : r < H) :
    (List.range H).reverse.getD r 0 = H - 1 - r := by
  have h1 : (List.range H).reverse[r]? =
      (List.range H)[(List.range H).length - 1 - r]? :=
    List.getElem?_reverse (by simpa using hr)
  rw [List.length_range] at h1
  have h2 : (List.range H)[H - 1 - r]? = some (H - 1 - r) :=
    List.getElem?_range (by omega)
  simp [List.getD_eq_getElem?_getD, h1, h2]

/-- Claim C3: the published grid reads canvas rows bottom to top (output
row 0 is the canvas's last pixel row) and columns left to right, and its
metadata is resolution = configured resolution, origin position
(-ox * resolution, (-height + oy) * resolution, 0) with identity
orientation. -/
theorem C3_grid_layout (res : ℚ) (ox oy : ℚ) (W H : ℕ) (pixels : ℕ → ℕ)
    (r c : ℕ) (hr : r < H) (hc : c < W) :
    ∃ g, PublishOccupancyGrid res (ox, oy) W H pixels = some g ∧
      g.resolution = res ∧
      g.originX = -ox * res ∧
      g.originY = (-(H : ℚ) + oy) * res ∧
      g.originZ = 0 ∧
      g.orientW = 1 ∧ g.orientX = 0 ∧ g.orientY = 0 ∧ g.orientZ = 0 ∧
      g.data[r * W + c]? = some (quantVal (pixels ((H - 1 - r) * W + c))) := by
  have hmapM : (canvasRowMajor W H pixels).mapM quantizePixel =
      some ((canvasRowMajor W H pixels).map quantVal) :=
    mapM_option_eq_map _ _ _ (fun a _ => quantizePixel_eq_quantVal a)
  refine ⟨_, by rw [PublishOccupancyGrid, hmapM], rfl, rfl, rfl, rfl, rfl, rfl, rfl, rfl, ?_⟩
  show ((canvasRowMajor W H pixels).map quantVal)[r * W + c]? = _
  rw [List.getElem?_map, canvasRowMajor,
    flatMap_row_getElem? W _ _ r c (by simpa using hr) hc,
    range_reverse_getD H r hr]
  rfl

/-- Claim C3 witness: a 2-by-2 canvas; output row 0, column 1 comes from
the canvas's bottom row (y = 1). -/
theorem C3_grid_layout_witness :
    ∃ g, PublishOccupancyGrid 1 (0, 0) 2 2 (fun i => i) = some g ∧
      g.resolution = 1 ∧
      g.originX = -0 * 1 ∧
      g.originY = (-((2 : ℕ) : ℚ) + 0) * 1 ∧
      g.originZ = 0 ∧
      g.orientW = 1 ∧ g.orientX = 0 ∧ g.orientY = 0 ∧ g.orientZ = 0 ∧
      g.data[0 * 2 + 1]? = some (quantVal ((2 - 1 - 0) * 2 + 1)) :=
  C3_grid_layout 1 0 0 2 2 (fun i => i) 0 1 (by decide) (by decide)

/-- Rigid 3D transform of cartographer (transform::Rigid3d), with the
rotation stored as an explicit 3x3 matrix; rij is row i, column j of the
rotation and ti the translation component i. -/
structure Rigid3 where
  r00 : ℚ
  r01 : ℚ
  r02 : ℚ
  r10 : ℚ
  r11 : ℚ
  r12 : ℚ
  r20 : ℚ
  r21 : ℚ
  r22 : ℚ
  t0 : ℚ
  t1 : ℚ
  t2 : ℚ
deriving DecidableEq

/-- Identity rigid transform (the default Rigid3d). -/
def idRigid : Rigid3 :=
  { r00 := 1, r01 := 0, r02 := 0,
    r10 := 0, r11 := 1, r12 := 0,
    r20 := 0, r21 := 0, r22 := 1,
    t0 := 0, t1 := 0, t2 := 0 }

/-- Composition a * b of rigid transforms: rotation is the matrix product,
translation is a's rotation applied to b's translation plus a's
translation; this is the 4x4 homogeneous matrix product computed by
ToEigen(rigid3).matrix(). -/
def Rigid3.comp (a b : Rigid3) : Rigid3 :=
  { r00 := a.r00 * b.r00 + a.r01 * b.r10 + a.r02 * b.r20,
    r01 := a.r00 * b.r01 + a.r01 * b.r11 + a.r02 * b.r21,
    r02 := a.r00 * b.r02 + a.r01 * b.r12 + a.r02 * b.r22,
    r10 := a.r10 * b.r00 + a.r11 * b.r10 + a.r12 * b.r20,
    r11 := a.r10 * b.r01 + a.r11 * b.r11 + a.r12 * b.r21,
    r12 := a.r10 * b.r02 + a.r11 * b.r12 + a.r12 * b.r22,
    r20 := a.r20 * b.r00 + a.r21 * b.r10 + a.r22 * b.r20,
    r21 := a.r20 * b.r01 + a.r21 * b.r11 + a.r22 * b.r21,
    r22 := a.r20 * b.r02 + a.r21 * b.r12 + a.r22 * b.r22,
    t0 := a.r00 * b.t0 + a.r01 * b.t1 + a.r02 * b.t2 + a.t0,
    t1 := a.r10 * b.t0 + a.r11 * b.t1 + a.r12 * b.t2 + a.t1,
    t2 := a.r20 * b.t0 + a.r21 * b.t1 + a.r22 * b.t2 + a.t2 }

/-- Cached per-submap state (struct SubmapState).  The cairo surface and
the cairo_data buffer it wraps are modelled together as an optional list
of packed pixel words: none is the default-constructed null surface.
Scalar texture fields of a never-fetched state are uninitialized in C++;
they are modelled as zero, and no claim reads them before a fetch because
the version comparison is guarded by the surface being non-null. -/
structure SubmapState where
  width : ℕ
  height : ℕ
  version : ℤ
  resolution : ℚ
  slice_pose : Rigid3
  surface : Option (List ℕ)
  pose : Rigid3
  metadata_version : ℤ
deriving DecidableEq

/-- Default-constructed SubmapState: null surface, metadata_version -1. -/
def defaultSubmapState : SubmapState :=
  { width := 0, height := 0, version := 0, resolution := 0,
    slice_pose := idRigid, surface := none, pose := idRigid,
    metadata_version := -1 }

/-- Submap identity: (trajectory_id, submap_index), ordered
lexicographically as mapping::SubmapId orders a std::map. -/
abbrev SubmapId : Type := ℤ × ℤ

/-- Strict lexicographic order on submap identities (the std::map key
order). -/
def idLt (a b : SubmapId) : Prop := a.1 < b.1 ∨ (a.1 = b.1 ∧ a.2 < b.2)

instance (a b : SubmapId) : Decidable (idLt a b) :=
  inferInstanceAs (Decidable (a.1 < b.1 ∨ (a.1 = b.1 ∧ a.2 < b.2)))

/-- Three-way comparison on submap identities. -/
def idCompare (a b : SubmapId) : Ordering :=
  if a.1 < b.1 then .lt
  else if b.1 < a.1 then .gt
  else if a.2 < b.2 then .lt
  else if b.2 < a.2 then .gt
  else .eq

/-- The submaps_ map as a key-sorted association list. -/
abbrev Cache : Type := List (SubmapId × SubmapState)

/-- Lookup in the cache (std::map::find semantics). -/
def cacheGet : Cache → SubmapId → Option SubmapState
  | [], _ => none
  | (k, v) :: rest, id => if k = id then some v else cacheGet rest id

/-- Ordered insert-or-replace in the cache (the net effect of
std::map::operator[] followed by member assignments). -/
def cacheSet : Cache → SubmapId → SubmapState → Cache
  | [], id, s => [(id, s)]
  | (k, v) :: rest, id, s =>
    match idCompare id k with
    | .lt => (id, s) :: (k, v) :: rest
    | .eq => (id, s) :: rest
    | .gt => (k, v) :: cacheSet rest id s

lemma idCompare_self (a : SubmapId) : idCompare a a = .eq := by
  unfold idCompare
  simp [lt_irrefl]

lemma idCompare_eq_iff (a b : SubmapId) : idCompare a b = .eq ↔ a = b := by
  constructor
  · intro h
    unfold idCompare at h
    by_cases h1 : a.1 < b.1
    · simp [h1] at h
    · by_cases h2 : b.1 < a.1
      · simp [h1, h2] at h
      · by_cases h3 : a.2 < b.2
        · simp [h1, h2, h3] at h
        · by_cases h4 : b.2 < a.2
          · simp [h1, h2, h3, h4] at h
          · have e1 : a.1 = b.1 := le_antisymm (not_lt.mp h2) (not_lt.mp h1)
            have e2 : a.2 = b.2 := le_antisymm (not_lt.mp h4) (not_lt.mp h3)
            exact Prod.ext e1 e2
  · intro h
    rw [h]
    exact idCompare_self b

lemma cacheGet_cacheSet_self (c : Cache) (id : SubmapId) (s : SubmapState) :
    cacheGet (cacheSet c id s) id = some s := by
  induction c with
  | nil => simp [cacheSet, cacheGet]
  | cons kv rest ih =>
    obtain ⟨k, v⟩ := kv
    rw [cacheSet]
    cases hcmp : idCompare id k with
    | lt => simp [cacheGet]
    | eq => simp [cacheGet]
    | gt =>
      have hne : ¬ (k = id) := by
        intro he
        rw [he, idCompare_self] at hcmp
        exact Ordering.noConfusion hcmp
      simp only [cacheGet, if_neg hne]
      exact ih

/-- CairoDrawEachSubmap: iterate over the cache in key order, folding the
callback f over each submap state; a submap whose surface is null makes
the function return immediately, so the remaining entries are not
visited.  The cairo transform set up for each submap before the callback
is not part of this generic fold; it is modelled by cornerDevice below. -/
def CairoDrawEachSubmap {α : Type} (f : α → SubmapState → α) (acc : α) :
    List (SubmapId × SubmapState) → α
  | [] => acc
  | (_, s) :: rest =>
    if s.surface.isSome then CairoDrawEachSubmap f (f acc s) rest else acc

/-- Submap states visited by the draw callback, in visiting order. -/
def drawnSubmaps (c : Cache) : List SubmapState :=
  CairoDrawEachSubmap (fun l s => l ++ [s]) [] c

/-- 2D affine map (a cairo_matrix_t): point (x, y) maps to
(xx * x + xy * y + x0, yx * x + yy * y + y0). -/
structure Affine2 where
  xx : ℚ
  yx : ℚ
  xy : ℚ
  yy : ℚ
  x0 : ℚ
  y0 : ℚ
deriving DecidableEq

/-- The cairo matrix CairoDrawEachSubmap installs for a submap: with homo
the 4x4 homogeneous matrix of pose * slice_pose, the matrix is
cairo_matrix_init(homo(1,0), homo(0,0), -homo(1,1), -homo(0,1),
homo(0,3), -homo(1,3)). -/
def submapMatrix (s : SubmapState) : Affine2 :=
  let h := s.pose.comp s.slice_pose
  { xx := h.r10, yx := h.r00, xy := -h.r11, yy := -h.r01,
    x0 := h.t0, y0 := -h.t1 }

/-- Device coordinates of a point p given in submap raster units: the
cairo CTM at callback time is scale(global) then the submap matrix then
scale(submap resolution), so cairo_user_to_device computes this value. -/
def cornerDevice (scale : ℚ) (s : SubmapState) (p : ℚ × ℚ) : ℚ × ℚ :=
  let m := submapMatrix s
  let u := s.resolution * p.1
  let v := s.resolution * p.2
  (scale * (m.xx * u + m.xy * v + m.x0), scale * (m.yx * u + m.yy * v + m.y0))

/-- The four transformed corners (0,0), (width,0), (0,height),
(width,height) of a submap, in the order the bounding-box callback visits
them. -/
def cornerPoints (scale : ℚ) (s : SubmapState) : List (ℚ × ℚ) :=
  [cornerDevice scale s (0, 0),
   cornerDevice scale s ((s.width : ℚ), 0),
   cornerDevice scale s (0, (s.height : ℚ)),
   cornerDevice scale s ((s.width : ℚ), (s.height : ℚ))]

/-- Axis-aligned bounding box (Eigen::AlignedBox2f with float replaced by
exact rationals). -/
structure BBox where
  minX : ℚ
  minY : ℚ
  maxX : ℚ
  maxY : ℚ
deriving DecidableEq

/-- bounding_box.extend(point); none is the default-empty box. -/
def extendPoint : Option BBox → ℚ × ℚ → Option BBox
  | none, p => some { minX := p.1, minY := p.2, maxX := p.1, maxY := p.2 }
  | some b, p =>
    some { minX := min b.minX p.1, minY := min b.minY p.2,
           maxX := max b.maxX p.1, maxY := max b.maxY p.2 }

/-- Bounding-box callback body: extend the box with the submap's four
transformed corners. -/
def bboxStep (scale : ℚ) (bb : Option BBox) (s : SubmapState) : Option BBox :=
  (cornerPoints scale s).foldl extendPoint bb

/-- Outcome of one Node::DrawAndPublish cycle.  aborted is the early
return on an empty cache; degenerate is the path in which the bounding
box was never extended, where the C++ computes the canvas size from an
empty Eigen box (float infinities and an undefined float-to-int cast), so
no well-defined grid exists; published carries the canvas size and the
origin offset handed to PublishOccupancyGrid. -/
inductive DrawResult : Type
  | aborted : DrawResult
  | degenerate : DrawResult
  | published (size : ℤ × ℤ) (origin : ℚ × ℚ) : DrawResult
deriving DecidableEq

/-- Node::DrawAndPublish: abort on an empty cache, run the bounding-box
pass (CairoDrawEachSubmap with scale 1/resolution), then size the canvas
as ceil(bbox sizes) plus 2 * 5 padding pixels and place the origin at
-bbox minimum plus the padding. -/
def DrawAndPublish (res : ℚ) (c : Cache) : DrawResult :=
  if c.isEmpty then .aborted
  else
    match CairoDrawEachSubmap (bboxStep (1 / res)) none c with
    | none => .degenerate
    | some bb =>
      .published (⌈bb.maxX - bb.minX⌉ + 2 * 5, ⌈bb.maxY - bb.minY⌉ + 2 * 5)
        (-bb.minX + 5, -bb.minY + 5)

/-- Canvas size of a published draw result, none otherwise. -/
def resultSize : DrawResult → Option (ℤ × ℤ)
  | .published size _ => some size
  | _ => none

/-- Modelled from the spec (sections 4.3 and 4.4): the axis-aligned
bounding box covering the four transformed corners of every tile of the
cache, with no skipping. -/
def specBBox (res : ℚ) (c : Cache) : Option BBox :=
  (c.flatMap fun p => cornerPoints (1 / res) p.2).foldl extendPoint none

/-- Modelled from the spec (section 4.4): canvas dimensions
ceil(bbox.width) + 10 by ceil(bbox.height) + 10. -/
def specCanvasSize (res : ℚ) (c : Cache) : Option (ℤ × ℤ) :=
  match specBBox res c with
  | none => none
  | some bb => some (⌈bb.maxX - bb.minX⌉ + 10, ⌈bb.maxY - bb.minY⌉ + 10)

lemma drawn_eq_takeWhile (c : List (SubmapId × SubmapState)) :
    ∀ acc : List SubmapState,
      CairoDrawEachSubmap (fun l s => l ++ [s]) acc c =
        acc ++ (c.takeWhile fun p => p.2.surface.isSome).map Prod.snd := by
  induction c with
  | nil => intro acc; simp [CairoDrawEachSubmap]
  | cons p rest ih =>
    intro acc
    obtain ⟨k, s⟩ := p
    simp only [CairoDrawEachSubmap]
    by_cases h : s.surface.isSome
    · rw [if_pos h, ih, List.takeWhile_cons_of_pos (by simpa using h)]
      simp
    · rw [if_neg h, List.takeWhile_cons_of_neg (by simpa using h)]
      simp

/-- Claim C4 (amended): both rendering passes visit exactly the maximal
prefix of the cache, in cache order, on which every submap has a raster
surface; a submap with a null surface stops the iteration, so submaps
after it are not visited, and for a key-sorted cache the visited prefix
is still in strictly ascending identity order. -/
theorem C4_draw_iteration (c : Cache) :
    drawnSubmaps c = (c.takeWhile fun p => p.2.surface.isSome).map Prod.snd ∧
    (List.Pairwise (fun p q => idLt p.1 q.1) c →
      List.Pairwise (fun p q => idLt p.1 q.1)
        (c.takeWhile fun p => p.2.surface.isSome)) := by
  constructor
  · simpa using drawn_eq_takeWhile c []
  · intro h
    exact h.sublist (List.takeWhile_sublist _)

/-- Submap state with a 1x1 raster surface present. -/
def sUnitSurf : SubmapState :=
  { defaultSubmapState with
    width := 1
    height := 1
    resolution := 1
    surface := some [] }

/-- Cache with a surface-less tile of lower identity followed by a
raster-bearing tile of higher identity. -/
def cMixedSurf : Cache := [((0, 0), defaultSubmapState), ((0, 1), sUnitSurf)]

/-- Claim C4 counterexample: in cMixedSurf the raster-bearing tile
(0,1) is never visited, because the surface-less tile (0,0) makes
CairoDrawEachSubmap return; the drawn list is empty instead of the list
of all raster-bearing tiles required by the claim. -/
theorem C4_counterexample :
    drawnSubmaps cMixedSurf = [] ∧
    (cMixedSurf.filter fun p => p.2.surface.isSome).map Prod.snd = [sUnitSurf] ∧
    ([] : List SubmapState) ≠ [sUnitSurf] := by
  refine ⟨by decide, by decide, by decide⟩

/-- Claim C4 witness: a sorted cache whose second tile lacks a surface;
the theorem applies with the sortedness hypothesis discharged
concretely. -/
theorem C4_draw_iteration_witness :
    drawnSubmaps [((0, 0), sUnitSurf), ((0, 1), defaultSubmapState)] =
      (([((0, 0), sUnitSurf), ((0, 1), defaultSubmapState)] : Cache).takeWhile
        fun p => p.2.surface.isSome).map Prod.snd ∧
    List.Pairwise (fun p q => idLt p.1 q.1)
      (([((0, 0), sUnitSurf), ((0, 1), defaultSubmapState)] : Cache).takeWhile
        fun p => p.2.surface.isSome) :=
  ⟨(C4_draw_iteration [((0, 0), sUnitSurf), ((0, 1), defaultSubmapState)]).1,
   (C4_draw_iteration [((0, 0), sUnitSurf), ((0, 1), defaultSubmapState)]).2
     (by decide)⟩

/-- Claim C5 (amended): the draw-and-publish cycle aborts, producing no
message, exactly when the tile cache is empty; a nonempty cache none of
whose tiles has a raster does not abort and instead reaches the
degenerate empty-bounding-box path. -/
theorem C5_abort_iff_empty (res : ℚ) (c : Cache) :
    DrawAndPublish res c = .aborted ↔ c = [] := by
  constructor
  · intro h
    by_contra hne
    rw [DrawAndPublish] at h
    rw [if_neg (by simpa [List.isEmpty_iff] using hne)] at h
    cases hm : CairoDrawEachSubmap (bboxStep (1 / res)) none c with
    | none => rw [hm] at h; exact DrawResult.noConfusion h
    | some bb => rw [hm] at h; exact DrawResult.noConfusion h
  · intro h
    subst h
    rfl

/-- Cache with one tile whose fetch never succeeded (null surface). -/
def cNoRaster : Cache := [((0, 0), defaultSubmapState)]

/-- Claim C5 counterexample: a nonempty cache in which no tile has a
raster; the cycle does not abort (it reaches the degenerate path), even
though the claim requires it to abort. -/
theorem C5_counterexample :
    DrawAndPublish 1 cNoRaster = .degenerate ∧
    DrawResult.degenerate ≠ DrawResult.aborted ∧
    cNoRaster ≠ [] ∧
    cNoRaster.all (fun p => p.2.surface.isNone) = true := by
  refine ⟨by decide, by decide, by decide, by decide⟩

lemma cairoDraw_all_some {α : Type} (f : α → SubmapState → α) :
    ∀ (c : List (SubmapId × SubmapState)) (acc : α),
      (∀ p ∈ c, p.2.surface.isSome) →
      CairoDrawEachSubmap f acc c = c.foldl (fun a p => f a p.2) acc := by
  intro c
  induction c with
  | nil => intro acc _; rfl
  | cons p rest ih =>
    intro acc h
    obtain ⟨k, s⟩ := p
    simp only [CairoDrawEachSubmap, List.foldl_cons]
    rw [if_pos (h (k, s) (by simp))]
    exact ih _ (fun q hq => h q (by simp [hq]))

lemma foldl_bboxStep_eq_flatMap (sc : ℚ) :
    ∀ (c : List (SubmapId × SubmapState)) (acc : Option BBox),
      c.foldl (fun a p => bboxStep sc a p.2) acc =
        (c.flatMap fun p => cornerPoints sc p.2).foldl extendPoint acc := by
  intro c
  induction c with
  | nil => intro acc; rfl
  | cons p rest ih =>
    intro acc
    simp only [List.foldl_cons, List.flatMap_cons, List.foldl_append]
    rw [bboxStep]
    exact ih _

lemma extendPoint_isSome (bb : Option BBox) (p : ℚ × ℚ) :
    (extendPoint bb p).isSome := by
  cases bb <;> rfl

lemma foldl_extendPoint_isSome :
    ∀ (ps : List (ℚ × ℚ)) (acc : Option BBox), acc.isSome →
      (ps.foldl extendPoint acc).isSome := by
  intro ps
  induction ps with
  | nil => intro acc h; exact h
  | cons p rest ih =>
    intro acc _
    rw [List.foldl_cons]
    exact ih _ (extendPoint_isSome acc p)

/-- Claim C8 (amended): for a render cycle in which every cached tile has
a raster, the composite canvas dimensions equal ceil(bbox.width) + 10 by
ceil(bbox.height) + 10 (5 padding pixels per side), where bbox is the
axis-aligned box covering the four transformed corners of every tile in
output-canvas pixel units, for arbitrary poses including non-identity
rotations; when a raster-less tile precedes a raster-bearing one the
bounding-box pass instead stops early (claim C4) and this formula does
not describe the cycle. -/
theorem C8_canvas_size (res : ℚ) (c : Cache) (hne : c ≠ [])
    (hall : ∀ p ∈ c, p.2.surface.isSome) :
    resultSize (DrawAndPublish res c) = specCanvasSize res c ∧
    (specCanvasSize res c).isSome := by
  have hfold : CairoDrawEachSubmap (bboxStep (1 / res)) none c = specBBox res c := by
    rw [cairoDraw_all_some _ c none hall, specBBox, foldl_bboxStep_eq_flatMap]
  have hsome : (specBBox res c).isSome := by
    cases c with
    | nil => exact absurd rfl hne
    | cons p rest =>
      rw [specBBox]
      simp only [List.flatMap_cons]
      rw [List.foldl_append]
      apply foldl_extendPoint_isSome
      rw [cornerPoints]
      simp only [List.foldl_cons]
      apply foldl_extendPoint_isSome
      exact extendPoint_isSome _ _
  obtain ⟨bb, hbb⟩ := Option.isSome_iff_exists.mp hsome
  have hmain : DrawAndPublish res c =
      .published (⌈bb.maxX - bb.minX⌉ + 2 * 5, ⌈bb.maxY - bb.minY⌉ + 2 * 5)
        (-bb.minX + 5, -bb.minY + 5) := by
    rw [DrawAndPublish, if_neg (by simpa [List.isEmpty_iff] using hne), hfold, hbb]
  rw [hmain, specCanvasSize, hbb]
  refine ⟨?_, rfl⟩
  rw [resultSize]
  norm_num

/-- Rotation about the z axis with cosine 3/5 and sine 4/5 (a non-identity
pose). -/
def rot345Pose : Rigid3 :=
  { r00 := 3/5, r01 := -4/5, r02 := 0,
    r10 := 4/5, r11 := 3/5, r12 := 0,
    r20 := 0, r21 := 0, r22 := 1,
    t0 := 0, t1 := 0, t2 := 0 }

/-- A 5x5 submap with a raster, posed under the 3-4-5 rotation. -/
def sRot : SubmapState :=
  { width := 5, height := 5, version := 0, resolution := 1,
    slice_pose := idRigid, surface := some [], pose := rot345Pose,
    metadata_version := 0 }

/-- Single-tile cache with a rotated pose. -/
def cRot : Cache := [((0, 0), sRot)]

/-- Claim C8 witness: the amendment applied to a cache whose only tile
has a non-identity rotation. -/
theorem C8_canvas_size_witness :
    resultSize (DrawAndPublish 1 cRot) = specCanvasSize 1 cRot ∧
    (specCanvasSize 1 cRot).isSome :=
  C8_canvas_size 1 cRot (by decide) (by decide)

/-- The raster-bearing tile of cMixedSurf on its own. -/
def cDrawOnly : Cache := [((0, 1), sUnitSurf)]

/-- Claim C8 counterexample: in the mixed cache the cycle reaches the
degenerate path and publishes no canvas at all, while the claim's formula
applied to the raster-bearing tiles produces a well-defined size, so the
canvas dimensions do not equal the claimed formula. -/
theorem C8_counterexample :
    resultSize (DrawAndPublish 1 cMixedSurf) = none ∧
    specCanvasSize 1 cDrawOnly ≠ none ∧
    resultSize (DrawAndPublish 1 cMixedSurf) ≠ specCanvasSize 1 cDrawOnly := by
  have h1 : resultSize (DrawAndPublish 1 cMixedSurf) = none := by decide
  have hbb : specBBox 1 cDrawOnly =
      some { minX := -1, minY := 0, maxX := 0, maxY := 1 } := by
    rw [specBBox]
    simp only [cDrawOnly, List.flatMap_cons, List.flatMap_nil, List.append_nil]
    rw [cornerPoints]
    simp only [List.foldl_cons, List.foldl_nil]
    norm_num [cornerDevice, submapMatrix, Rigid3.comp, sUnitSurf,
      defaultSubmapState, idRigid, extendPoint]
  have h2 : specCanvasSize 1 cDrawOnly =
      some (⌈(0 : ℚ) - -1⌉ + 10, ⌈(1 : ℚ) - 0⌉ + 10) := by
    rw [specCanvasSize, hbb]
  refine ⟨h1, ?_, ?_⟩
  · rw [h2]
    simp
  · rw [h1, h2]
    simp

/-- Fetched texture (cartographer_ros::SubmapTexture) as returned by the
fetch collaborator FetchSubmapTexture. -/
structure SubmapTexture where
  width : ℕ
  height : ℕ
  version : ℤ
  slice_pose : Rigid3
  resolution : ℚ
  intensity : List ℕ
  alpha : List ℕ
deriving DecidableEq

/-- One entry of the inbound SubmapList message. -/
structure SubmapEntryMsg where
  trajectory_id : ℤ
  submap_index : ℤ
  submap_version : ℤ
  pose : Rigid3
deriving DecidableEq

/-- Identity of a message entry. -/
def entryId (e : SubmapEntryMsg) : SubmapId := (e.trajectory_id, e.submap_index)

/-- cairo_format_stride_for_width(CAIRO_FORMAT_ARGB32, w): 4 bytes per
pixel rounded up to 4-byte alignment, hence exactly 4 * w. -/
def cairoStrideForWidth (w : ℕ) : ℕ := 4 * w

/-- State of a message entry's tile after the two unconditional
assignments of Node::HandleSubmapList: pose and metadata_version taken
from the message, everything else as cached (or default-constructed on
first mention of the identity). -/
def submapEntryS1 (c : Cache) (e : SubmapEntryMsg) : SubmapState :=
  { (cacheGet c (entryId e)).getD defaultSubmapState with
    pose := e.pose
    metadata_version := e.submap_version }

/-- Body of the per-entry loop of Node::HandleSubmapList.  The Bool
records whether the fetch collaborator was invoked for this entry.  pose
and metadata_version are assigned unconditionally; if a surface exists at
the reported version the fetch is skipped; a failed fetch (none) leaves
the rest of the state untouched; otherwise all texture fields and a fresh
pixel buffer replace the state.  none for the cache models the
CHECK_EQ stride failure or a vector::at exception while packing. -/
def handleSubmapEntry (fetch : SubmapId → Option SubmapTexture) (c : Cache)
    (e : SubmapEntryMsg) : Option Cache × Bool :=
  if (submapEntryS1 c e).surface.isSome ∧
      (submapEntryS1 c e).version = e.submap_version then
    (some (cacheSet c (entryId e) (submapEntryS1 c e)), false)
  else
    match fetch (entryId e) with
    | none => (some (cacheSet c (entryId e) (submapEntryS1 c e)), true)
    | some tex =>
      if 4 * tex.width = cairoStrideForWidth tex.width then
        match buildCairoData tex.intensity tex.alpha with
        | none => (none, true)
        | some cd =>
          (some (cacheSet c (entryId e)
            { width := tex.width, height := tex.height,
              version := tex.version, resolution := tex.resolution,
              slice_pose := tex.slice_pose, surface := some cd,
              pose := e.pose, metadata_version := e.submap_version }), true)
      else (none, true)

/-- The entry loop of Node::HandleSubmapList over a whole message batch,
returning the updated cache (none if an entry aborted fatally) and the
identities for which the fetch collaborator was invoked, in order. -/
def HandleSubmapList (fetch : SubmapId → Option SubmapTexture) (c : Cache) :
    List SubmapEntryMsg → Option Cache × List SubmapId
  | [] => (some c, [])
  | e :: rest =>
    match handleSubmapEntry fetch c e with
    | (none, b) => (none, if b then [entryId e] else [])
    | (some c1, b) =>
      let r := HandleSubmapList fetch c1 rest
      (r.1, (if b then [entryId e] else []) ++ r.2)

/-- Claim C6 (amended): an entry whose identity has a cached raster at
the reported version skips the fetch and changes only pose and
metadata_version; and a second update with the same (id, version) never
fetches, provided the first call succeeded, in particular because the
fetch collaborator returned a texture carrying the reported version (a
failed fetch, by contrast, is retried: claim C7). -/
theorem C6_skip_and_conditional_idempotence :
    (∀ (fetch : SubmapId → Option SubmapTexture) (c : Cache)
        (e : SubmapEntryMsg) (s : SubmapState),
      cacheGet c (entryId e) = some s → s.surface.isSome →
      s.version = e.submap_version →
      handleSubmapEntry fetch c e =
        (some (cacheSet c (entryId e)
          { s with pose := e.pose, metadata_version := e.submap_version }),
         false)) ∧
    (∀ (fetch : SubmapId → Option SubmapTexture) (c c1 : Cache)
        (e : SubmapEntryMsg) (tex : SubmapTexture) (b : Bool),
      fetch (entryId e) = some tex → tex.version = e.submap_version →
      handleSubmapEntry fetch c e = (some c1, b) →
      (handleSubmapEntry fetch c1 e).2 = false) := by
  have hsecond : ∀ (fetch : SubmapId → Option SubmapTexture) (c : Cache)
      (e : SubmapEntryMsg) (s2 : SubmapState), s2.surface.isSome →
      s2.version = e.submap_version →
      (handleSubmapEntry fetch (cacheSet c (entryId e) s2) e).2 = false := by
    intro fetch c e s2 h2s h2v
    have hs1 : submapEntryS1 (cacheSet c (entryId e) s2) e =
        { s2 with pose := e.pose, metadata_version := e.submap_version } := by
      rw [submapEntryS1, cacheGet_cacheSet_self]
      rfl
    rw [handleSubmapEntry, hs1, if_pos ⟨h2s, h2v⟩]
  constructor
  · intro fetch c e s hget hsurf hver
    have hs1 : submapEntryS1 c e =
        { s with pose := e.pose, metadata_version := e.submap_version } := by
      rw [submapEntryS1, hget]
      rfl
    rw [handleSubmapEntry, hs1, if_pos ⟨hsurf, hver⟩]
  · intro fetch c c1 e tex b hfetch hver h1
    rw [handleSubmapEntry] at h1
    by_cases hcond : (submapEntryS1 c e).surface.isSome ∧
        (submapEntryS1 c e).version = e.submap_version
    · rw [if_pos hcond] at h1
      have hc1 : c1 = cacheSet c (entryId e) (submapEntryS1 c e) := by
        have h2 := congrArg Prod.fst h1
        simp only [Prod.fst] at h2
        exact (Option.some_inj.mp h2).symm
      rw [hc1]
      exact hsecond fetch c e _ hcond.1 hcond.2
    · rw [if_neg hcond, hfetch] at h1
      have h1' : (if 4 * tex.width = cairoStrideForWidth tex.width then
          match buildCairoData tex.intensity tex.alpha with
          | none => ((none : Option Cache), true)
          | some cd =>
            (some (cacheSet c (entryId e)
              { width := tex.width, height := tex.height,
                version := tex.version, resolution := tex.resolution,
                slice_pose := tex.slice_pose, surface := some cd,
                pose := e.pose, metadata_version := e.submap_version }), true)
          else ((none : Option Cache), true)) = (some c1, b) := h1
      rw [if_pos (show 4 * tex.width = cairoStrideForWidth tex.width from rfl)] at h1'
      cases hbuild : buildCairoData tex.intensity tex.alpha with
      | none =>
        rw [hbuild] at h1'
        have h2 := congrArg Prod.fst h1'
        simp only [Prod.fst] at h2
        exact Option.noConfusion h2
      | some cd =>
        rw [hbuild] at h1'
        have h2 := congrArg Prod.fst h1'
        simp only [Prod.fst] at h2
        have hc1 : c1 = cacheSet c (entryId e)
            { width := tex.width, height := tex.height,
              version := tex.version, resolution := tex.resolution,
              slice_pose := tex.slice_pose, surface := some cd,
              pose := e.pose, metadata_version := e.submap_version } :=
          (Option.some_inj.mp h2).symm
        rw [hc1]
        exact hsecond fetch c e _ rfl hver

/-- Message entry with identity (0,0) reporting content version 7. -/
def eC6 : SubmapEntryMsg :=
  { trajectory_id := 0, submap_index := 0, submap_version := 7,
    pose := idRigid }

/-- Fetch collaborator that always fails. -/
def fetchNone : SubmapId → Option SubmapTexture := fun _ => none

/-- Cache state after one failed-fetch update of eC6 on an empty cache. -/
def c1C6 : Cache :=
  [((0, 0),
    { width := 0, height := 0, version := 0, resolution := 0,
      slice_pose := idRigid, surface := none, pose := idRigid,
      metadata_version := 7 })]

/-- Claim C6 counterexample: with a fetch collaborator that fails, two
updates with the identical (id, version) pair both invoke the fetch; the
second call's fetched-identity list is nonempty, contradicting the
claim's unconditional never-fetches-the-second-time clause. -/
theorem C6_counterexample :
    HandleSubmapList fetchNone [] [eC6] = (some c1C6, [(0, 0)]) ∧
    (HandleSubmapList fetchNone c1C6 [eC6]).2 = [(0, 0)] ∧
    ([(0, 0)] : List SubmapId) ≠ [] := by
  refine ⟨by decide, by decide, by decide⟩

/-- Cached tile whose raster is already at version 7. -/
def sCachedC6 : SubmapState :=
  { width := 2, height := 2, version := 7, resolution := 1,
    slice_pose := idRigid, surface := some [1, 2, 3, 4], pose := idRigid,
    metadata_version := 5 }

/-- Single-tile cache holding sCachedC6 under identity (0,0). -/
def cWitC6 : Cache := [((0, 0), sCachedC6)]

/-- Texture whose version matches the reported version 7. -/
def texC6 : SubmapTexture :=
  { width := 0, height := 0, version := 7, slice_pose := idRigid,
    resolution := 0, intensity := [], alpha := [] }

/-- Fetch collaborator returning texC6. -/
def fetchTexC6 : SubmapId → Option SubmapTexture := fun _ => some texC6

/-- Cache produced by a successful first update of eC6 via fetchTexC6. -/
def c1WitC6 : Cache :=
  [((0, 0),
    { width := 0, height := 0, version := 7, resolution := 0,
      slice_pose := idRigid, surface := some [], pose := idRigid,
      metadata_version := 7 })]

/-- Claim C6 witness: the skip clause on a cache already holding version
7, and the conditional idempotence clause after a successful fetch of a
version-7 texture. -/
theorem C6_witness :
    handleSubmapEntry fetchNone cWitC6 eC6 =
      (some (cacheSet cWitC6 (entryId eC6)
        { sCachedC6 with pose := eC6.pose, metadata_version := eC6.submap_version }),
       false) ∧
    (handleSubmapEntry fetchTexC6 c1WitC6 eC6).2 = false :=
  ⟨C6_skip_and_conditional_idempotence.1 fetchNone cWitC6 eC6 sCachedC6
      (by decide) (by decide) (by decide),
   C6_skip_and_conditional_idempotence.2 fetchTexC6 [] c1WitC6 eC6 texC6 true
      (by decide) (by decide) (by decide)⟩

/-- Claim C7: a failed fetch for one entry leaves that tile's raster
absent and its texture fields unchanged (only pose and metadata_version
are updated), the remaining entries of the batch are still processed, and
since an absent raster never satisfies the version check, any later
update of the same identity invokes the fetch collaborator again. -/
theorem C7_per_tile_failure (fetch : SubmapId → Option SubmapTexture)
    (c : Cache) (e : SubmapEntryMsg) (rest : List SubmapEntryMsg)
    (hfetch : fetch (entryId e) = none)
    (hsurf : ((cacheGet c (entryId e)).getD defaultSubmapState).surface = none) :
    handleSubmapEntry fetch c e =
      (some (cacheSet c (entryId e) (submapEntryS1 c e)), true) ∧
    ((submapEntryS1 c e).surface = none ∧
      (submapEntryS1 c e).width =
        ((cacheGet c (entryId e)).getD defaultSubmapState).width ∧
      (submapEntryS1 c e).height =
        ((cacheGet c (entryId e)).getD defaultSubmapState).height ∧
      (submapEntryS1 c e).version =
        ((cacheGet c (entryId e)).getD defaultSubmapState).version ∧
      (submapEntryS1 c e).resolution =
        ((cacheGet c (entryId e)).getD defaultSubmapState).resolution ∧
      (submapEntryS1 c e).slice_pose =
        ((cacheGet c (entryId e)).getD defaultSubmapState).slice_pose) ∧
    HandleSubmapList fetch c (e :: rest) =
      ((HandleSubmapList fetch (cacheSet c (entryId e) (submapEntryS1 c e)) rest).1,
        entryId e ::
          (HandleSubmapList fetch (cacheSet c (entryId e) (submapEntryS1 c e)) rest).2) ∧
    (∀ (fetch2 : SubmapId → Option SubmapTexture) (e2 : SubmapEntryMsg),
      entryId e2 = entryId e →
      (handleSubmapEntry fetch2 (cacheSet c (entryId e) (submapEntryS1 c e)) e2).2 = true) := by
  have hse : (submapEntryS1 c e).surface = none := hsurf
  have hnots : ¬ ((submapEntryS1 c e).surface.isSome ∧
      (submapEntryS1 c e).version = e.submap_version) := by
    intro hand
    rw [hse] at hand
    exact Bool.noConfusion hand.1
  have hentry : handleSubmapEntry fetch c e =
      (some (cacheSet c (entryId e) (submapEntryS1 c e)), true) := by
    rw [handleSubmapEntry, if_neg hnots, hfetch]
  refine ⟨hentry, ⟨hse, rfl, rfl, rfl, rfl, rfl⟩, ?_, ?_⟩
  · rw [HandleSubmapList, hentry]
    rfl
  · intro fetch2 e2 he2
    have hget2 : cacheGet (cacheSet c (entryId e) (submapEntryS1 c e)) (entryId e2) =
        some (submapEntryS1 c e) := by
      rw [he2]
      exact cacheGet_cacheSet_self c (entryId e) (submapEntryS1 c e)
    have hs1surf : (submapEntryS1 (cacheSet c (entryId e) (submapEntryS1 c e)) e2).surface =
        none := by
      rw [submapEntryS1, hget2]
      exact hse
    have hnots2 : ¬ ((submapEntryS1 (cacheSet c (entryId e) (submapEntryS1 c e)) e2).surface.isSome ∧
        (submapEntryS1 (cacheSet c (entryId e) (submapEntryS1 c e)) e2).version =
          e2.submap_version) := by
      intro hand
      rw [hs1surf] at hand
      exact Bool.noConfusion hand.1
    rw [handleSubmapEntry, if_neg hnots2]
    split
    · rfl
    · split
      · split
        · rfl
        · rfl
      · rfl

/-- Second message entry, identity (0,1). -/
def eC7b : SubmapEntryMsg :=
  { trajectory_id := 0, submap_index := 1, submap_version := 3,
    pose := idRigid }

/-- Claim C7 witness: a failing fetch on an empty cache; the entry's
raster stays absent and the next update of the same identity fetches
again. -/
theorem C7_per_tile_failure_witness :
    handleSubmapEntry fetchNone [] eC6 =
      (some (cacheSet [] (entryId eC6) (submapEntryS1 [] eC6)), true) ∧
    (∀ (fetch2 : SubmapId → Option SubmapTexture) (e2 : SubmapEntryMsg),
      entryId e2 = entryId eC6 →
      (handleSubmapEntry fetch2
        (cacheSet [] (entryId eC6) (submapEntryS1 [] eC6)) e2).2 = true) :=
  ⟨(C7_per_tile_failure fetchNone [] eC6 [eC7b] (by decide) (by decide)).1,
   (C7_per_tile_failure fetchNone [] eC6 [eC7b] (by decide) (by decide)).2.2.2⟩

/-- Lower bound of the clamped scan window along one axis, in size_t
arithmetic: (a > 0 ? a - 2 : 0); for a = 1 the unsigned subtraction wraps
modulo 2^64, making the loop start above every upper bound. -/
def filterWindowLo (a : ℕ) : ℕ :=
  if 0 < a then (a + (2 ^ 64 - 2)) % 2 ^ 64 else 0

/-- Inclusive upper bound of the clamped scan window:
(a + 2 < bound ? a + 2 : bound); note the clamp is bound itself, one past
the last valid coordinate. -/
def filterWindowHi (a bound : ℕ) : ℕ :=
  if a + 2 < bound then a + 2 else bound

/-- Coordinates visited along one axis: lo..hi inclusive, empty when the
wrapped lower bound exceeds the upper bound. -/
def filterWindow (a bound : ℕ) : List ℕ :=
  (List.range (filterWindowHi a bound + 1 - filterWindowLo a)).map
    (filterWindowLo a + ·)

/-- Data indices read by the scan of FilterOccupancyGrid at cell (y, x). -/
def filterReadIndices (W H x y : ℕ) : List ℕ :=
  (filterWindow y H).flatMap fun i => (filterWindow x W).map fun j => i * W + j

/-- The neighborhood scan of FilterOccupancyGrid: read every window value,
counting visited cells (count) and confidently-free values (no_occ:
strictly positive and strictly below the threshold); none models an
out-of-bounds vector read. -/
def filterScan (t : ℚ) (data : List ℤ) (W H x y : ℕ) : Option (ℕ × ℕ) :=
  ((filterReadIndices W H x y).mapM fun idx => data[idx]?).map fun vals =>
    (vals.length, (vals.filter fun v : ℤ => decide (0 < v ∧ (v : ℚ) < t)).length)

/-- Per-cell body of FilterOccupancyGrid: a cell that is negative or
above the threshold is re-voted from its clamped 5x5 neighborhood (free
if strictly more than half the visited cells are confidently free,
otherwise 100 if originally positive and -1 if not); any other cell is
reset to 0. -/
def filterCell (t : ℚ) (W H : ℕ) (data : List ℤ) (y x : ℕ) : Option (List ℤ) :=
  (data[y * W + x]?).bind fun cell =>
    if cell < 0 ∨ t < (cell : ℚ) then
      (filterScan t data W H x y).bind fun cn =>
        if cn.1 / 2 < cn.2 then some (data.set (y * W + x) 0)
        else some (data.set (y * W + x) (if 0 < cell then 100 else -1))
    else some (data.set (y * W + x) 0)

/-- Cell coordinates of a W-by-H grid in the traversal order of the two
nested loops (row-major). -/
def gridPositions (W H : ℕ) : List (ℕ × ℕ) :=
  (List.range H).flatMap fun y => (List.range W).map fun x => (y, x)

/-- The in-place double loop of FilterOccupancyGrid on a raw data array. -/
def filterData (t : ℚ) (W H : ℕ) (data : List ℤ) : Option (List ℤ) :=
  (gridPositions W H).foldlM (fun d (p : ℕ × ℕ) => filterCell t W H d p.1 p.2) data

/-- FilterOccupancyGrid (denoise Variant B), in-place on the grid's data
array; none models an out-of-bounds read of the data vector. -/
def FilterOccupancyGrid (g : OccupancyGrid) (t : ℚ) : Option OccupancyGrid :=
  match filterData t g.width g.height g.data with
  | none => none
  | some d => some { g with data := d }

/-- One-by-one grid holding a single unknown cell. -/
def gridC10 : OccupancyGrid :=
  { resolution := 0, width := 1, height := 1, originX := 0, originY := 0,
    originZ := 0, orientW := 1, orientX := 0, orientY := 0, orientZ := 0,
    data := [-1] }

/-- Claim C10: FilterOccupancyGrid on a 1x1 grid reads indices 1 and 2 of
a length-1 data array, because the window clamp uses width and height
themselves (one past the last valid coordinate); the Option embedding
hits the out-of-bounds branch and returns none. -/
theorem C10_out_of_bounds_read :
    FilterOccupancyGrid gridC10 0 = none ∧
    2 ∈ filterReadIndices 1 1 0 0 ∧
    ¬ 2 < gridC10.width * gridC10.height := by
  refine ⟨by decide, by decide, by decide⟩

/-- Seven-by-seven grid, all free (0) except an occupied center cell of
value 80 at row 3, column 3 (index 24). -/
def gridC9 : OccupancyGrid :=
  { resolution := 0, width := 7, height := 7, originX := 0, originY := 0,
    originZ := 0, orientW := 1, orientX := 0, orientY := 0, orientZ := 0,
    data := (List.replicate 49 (0 : ℤ)).set 24 80 }

/-- Claim C9 counterexample: the center cell of gridC9 exceeds the
threshold 50 and every other cell of its clamped 5x5 neighborhood is 0
(the free value), yet FilterOccupancyGrid sets it to 100, not 0: zero is
not counted as confidently free by the majority vote. -/
theorem C9_counterexample :
    ((FilterOccupancyGrid gridC9 50).bind fun g => g.data[24]?) = some 100 ∧
    ((FilterOccupancyGrid gridC9 50).bind fun g => g.data[24]?) ≠ some 0 ∧
    gridC9.data[24]? = some 80 ∧
    (50 : ℚ) < ((80 : ℤ) : ℚ) ∧
    (∀ idx ∈ filterReadIndices 7 7 3 3, idx ≠ 24 → gridC9.data[idx]? = some 0) := by
  refine ⟨by decide, by decide, by decide, by decide, by decide⟩

lemma list_set_self {α : Type} :
    ∀ (l : List α) (i : ℕ) (a : α), l[i]? = some a → l.set i a = l := by
  intro l
  induction l with
  | nil => intro i a h; cases h
  | cons b tl ih =>
    intro i a h
    cases i with
    | zero =>
      simp only [List.getElem?_cons_zero, Option.some_inj] at h
      rw [List.set_cons_zero, h]
    | succ i' =>
      simp only [List.getElem?_cons_succ] at h
      rw [List.set_cons_succ, ih i' a h]

lemma idx_lt_size (W H a b : ℕ) (ha : a < H) (hb : b < W) :
    a * W + b < W * H := by
  have h1 : a * W + b < (a + 1) * W := by
    rw [Nat.succ_mul]
    exact Nat.add_lt_add_left hb _
  have h2 : (a + 1) * W ≤ H * W := Nat.mul_le_mul_right W (by omega)
  rw [Nat.mul_comm H W] at h2
  omega

lemma idx_inj (W : ℕ) {a b c d : ℕ} (hb : b < W) (hd : d < W)
    (h : a * W + b = c * W + d) : a = c ∧ b = d := by
  have hW : 0 < W := by omega
  have hmoda : (W * a + b) % W = b := by
    rw [Nat.mul_add_mod]
    exact Nat.mod_eq_of_lt hb
  have hmodc : (W * c + d) % W = d := by
    rw [Nat.mul_add_mod]
    exact Nat.mod_eq_of_lt hd
  have hdiva : (W * a + b) / W = a := by
    rw [Nat.mul_add_div hW, Nat.div_eq_of_lt hb]
    omega
  have hdivc : (W * c + d) / W = c := by
    rw [Nat.mul_add_div hW, Nat.div_eq_of_lt hd]
    omega
  rw [Nat.mul_comm a W, Nat.mul_comm c W] at h
  constructor
  · rw [← hdiva, ← hdivc, h]
  · rw [← hmoda, ← hmodc, h]

lemma single_data_getElem? (W H x y : ℕ) (v : ℤ) (idx : ℕ) (hidx : idx < W * H) :
    ((List.replicate (W * H) (0 : ℤ)).set (y * W + x) v)[idx]? =
      some (if idx = y * W + x then v else 0) := by
  by_cases h : idx = y * W + x
  · rw [h, if_pos rfl]
    rw [List.getElem?_set_self (by simpa using (h ▸ hidx))]
  · rw [if_neg h, List.getElem?_set_ne (fun he => h he.symm)]
    simp [List.getElem?_replicate, hidx]

lemma filterCell_zero (t : ℚ) (W H : ℕ) (d : List ℤ) (y x : ℕ)
    (ht : 0 ≤ t) (h : d[y * W + x]? = some 0) :
    filterCell t W H d y x = some d := by
  rw [filterCell, h, Option.some_bind]
  rw [if_neg ?hng]
  case hng =>
    rintro (hlt | hlt)
    · exact absurd hlt (lt_irrefl 0)
    · rw [Int.cast_zero] at hlt
      exact absurd hlt (not_lt.mpr ht)
  rw [list_set_self d _ 0 h]

lemma filterFold_zeros (t : ℚ) (W H : ℕ) (ht : 0 ≤ t) :
    ∀ (ps : List (ℕ × ℕ)) (d : List ℤ),
      (∀ p ∈ ps, d[p.1 * W + p.2]? = some 0) →
      ps.foldlM (fun dd (p : ℕ × ℕ) => filterCell t W H dd p.1 p.2) d = some d := by
  intro ps
  induction ps with
  | nil => intro d _; rfl
  | cons p rest ih =>
    intro d h
    rw [List.foldlM_cons, filterCell_zero t W H d p.1 p.2 ht (h p (by simp))]
    exact ih d (fun q hq => h q (by simp [hq]))

lemma filterWindow_interior (a bound : ℕ) (h2 : 2 ≤ a) (hb : a + 2 < bound)
    (hbig : a ≤ 2 ^ 32) :
    filterWindow a bound = (List.range 5).map (a - 2 + ·) := by
  have hlo : filterWindowLo a = a - 2 := by
    rw [filterWindowLo, if_pos (by omega)]
    omega
  have hhi : filterWindowHi a bound = a + 2 := by
    rw [filterWindowHi, if_pos hb]
  rw [filterWindow, hlo, hhi]
  have h5 : a + 2 + 1 - (a - 2) = 5 := by omega
  rw [h5]

lemma filterCell_center (t : ℚ) (W H : ℕ) (d : List ℤ) (y x : ℕ) (v : ℤ)
    (ht : 0 ≤ t) (hvt : t < (v : ℚ)) (hc : d[y * W + x]? = some v)
    (hreads : ∀ idx ∈ filterReadIndices W H x y,
      d[idx]? = some (if idx = y * W + x then v else 0)) :
    filterCell t W H d y x = some (d.set (y * W + x) 100) := by
  have hv0 : (0 : ℤ) < v := by
    have h1 : ((0 : ℤ) : ℚ) < (v : ℚ) := by
      rw [Int.cast_zero]
      exact lt_of_le_of_lt ht hvt
    exact_mod_cast h1
  rw [filterCell, hc, Option.some_bind, if_pos (Or.inr hvt)]
  rw [filterScan, mapM_option_eq_map _ _ _ hreads]
  have hfil : (((filterReadIndices W H x y).map fun idx =>
      if idx = y * W + x then v else (0 : ℤ)).filter
        fun w : ℤ => decide (0 < w ∧ (w : ℚ) < t)) = [] := by
    apply List.filter_eq_nil_iff.mpr
    intro w hw
    obtain ⟨idx, _, rfl⟩ := List.mem_map.mp hw
    by_cases hidx : idx = y * W + x
    · rw [if_pos hidx]
      simp only [decide_eq_true_eq, not_and]
      intro _
      exact not_lt.mpr (le_of_lt hvt)
    · rw [if_neg hidx]
      simp only [decide_eq_true_eq, not_and]
      intro h0
      exact absurd h0 (lt_irrefl 0)
  simp only [Option.map_some', Option.some_bind]
  rw [hfil]
  rw [if_neg (by simp)]
  rw [if_pos hv0]

lemma range_split (H y : ℕ) (hy : y < H) :
    List.range H = List.range y ++ [y] ++ (List.range (H - y - 1)).map (y + 1 + ·) := by
  have h1 : H = (y + 1) + (H - y - 1) := by omega
  conv_lhs => rw [h1]
  rw [List.range_add]
  congr 1
  simp [List.range_succ]

lemma gridPositions_split (W H x y : ℕ) (hx : x < W) (hy : y < H) :
    ∃ A B : List (ℕ × ℕ),
      gridPositions W H = A ++ (y, x) :: B ∧
      (∀ p ∈ A, p.1 < H ∧ p.2 < W ∧ p.1 * W + p.2 ≠ y * W + x) ∧
      (∀ p ∈ B, p.1 < H ∧ p.2 < W ∧ p.1 * W + p.2 ≠ y * W + x) := by
  refine ⟨((List.range y).flatMap fun b => (List.range W).map fun a => (b, a)) ++
      ((List.range x).map fun a => (y, a)),
    ((List.range (W - x - 1)).map fun k => (y, x + 1 + k)) ++
      ((List.range (H - y - 1)).flatMap fun k =>
        (List.range W).map fun a => (y + 1 + k, a)), ?_, ?_, ?_⟩
  · have hrow : ((List.range W).map fun a => ((y, a) : ℕ × ℕ)) =
        ((List.range x).map fun a => (y, a)) ++
          ((y, x) :: ((List.range (W - x - 1)).map fun k => (y, x + 1 + k))) := by
      rw [range_split W x hx, List.map_append, List.map_append, List.map_map]
      simp [List.append_assoc, Function.comp]
    rw [gridPositions, range_split H y hy, List.flatMap_append, List.flatMap_append,
      List.flatMap_map]
    simp only [List.flatMap_cons, List.flatMap_nil, List.append_nil]
    rw [hrow]
    simp [List.append_assoc]
  · intro p hp
    rw [List.mem_append] at hp
    rcases hp with hp | hp
    · rw [List.mem_flatMap] at hp
      obtain ⟨b, hb, hpmem⟩ := hp
      rw [List.mem_range] at hb
      obtain ⟨a, ha, rfl⟩ := List.mem_map.mp hpmem
      rw [List.mem_range] at ha
      refine ⟨by omega, ha, ?_⟩
      intro he
      have := (idx_inj W ha hx he).1
      omega
    · obtain ⟨a, ha, rfl⟩ := List.mem_map.mp hp
      rw [List.mem_range] at ha
      refine ⟨hy, by omega, ?_⟩
      intro he
      have := (idx_inj W (by omega : a < W) hx he).2
      omega
  · intro p hp
    rw [List.mem_append] at hp
    rcases hp with hp | hp
    · obtain ⟨k, hk, rfl⟩ := List.mem_map.mp hp
      rw [List.mem_range] at hk
      refine ⟨hy, by omega, ?_⟩
      intro he
      have := (idx_inj W (by omega : x + 1 + k < W) hx he).2
      omega
    · rw [List.mem_flatMap] at hp
      obtain ⟨k, hk, hpmem⟩ := hp
      rw [List.mem_range] at hk
      obtain ⟨a, ha, rfl⟩ := List.mem_map.mp hpmem
      rw [List.mem_range] at ha
      refine ⟨by omega, ha, ?_⟩
      intro he
      have := (idx_inj W ha hx he).1
      omega

lemma center_window_reads (W H x y : ℕ) (v : ℤ)
    (hW : W ≤ 2 ^ 32) (hH : H ≤ 2 ^ 32)
    (hx2 : 2 ≤ x) (hxW : x + 2 < W) (hy2 : 2 ≤ y) (hyH : y + 2 < H) :
    ∀ idx ∈ filterReadIndices W H x y,
      ((List.replicate (W * H) (0 : ℤ)).set (y * W + x) v)[idx]? =
        some (if idx = y * W + x then v else 0) := by
  intro idx hidx
  rw [filterReadIndices, filterWindow_interior y H hy2 hyH (by omega),
    filterWindow_interior x W hx2 hxW (by omega)] at hidx
  rw [List.mem_flatMap] at hidx
  obtain ⟨i, hi, hmem⟩ := hidx
  obtain ⟨i0, hi0, rfl⟩ := List.mem_map.mp hi
  rw [List.mem_range] at hi0
  obtain ⟨j, hj, rfl⟩ := List.mem_map.mp hmem
  obtain ⟨j0, hj0, rfl⟩ := List.mem_map.mp hj
  rw [List.mem_range] at hj0
  exact single_data_getElem? W H x y v _
    (idx_lt_size W H (y - 2 + i0) (x - 2 + j0) (by omega) (by omega))

/-- Claim C9 (amended): on a grid whose only nonzero cell is an interior
occupied center strictly above the threshold with every other cell 0
(free), FilterOccupancyGrid reclassifies the center to 100 (occupied),
not 0: the majority vote counts only values strictly between 0 and the
threshold, so zero-valued neighbors are never confidently free and the
vote cannot reach a majority. -/
theorem C9_zero_neighborhood_keeps_occupied (g : OccupancyGrid) (t : ℚ)
    (x y : ℕ) (v : ℤ)
    (hW : g.width ≤ 2 ^ 32) (hH : g.height ≤ 2 ^ 32)
    (hx2 : 2 ≤ x) (hxW : x + 2 < g.width) (hy2 : 2 ≤ y) (hyH : y + 2 < g.height)
    (ht : 0 ≤ t) (hvt : t < (v : ℚ))
    (hdata : g.data =
      (List.replicate (g.width * g.height) 0).set (y * g.width + x) v) :
    FilterOccupancyGrid g t =
      some { g with data := g.data.set (y * g.width + x) 100 } := by
  have hx : x < g.width := by omega
  have hy : y < g.height := by omega
  have hcenterlt : y * g.width + x < g.width * g.height :=
    idx_lt_size g.width g.height y x hy hx
  obtain ⟨A, B, hsplit, hAmem, hBmem⟩ :=
    gridPositions_split g.width g.height x y hx hy
  have hfd : filterData t g.width g.height g.data =
      some (g.data.set (y * g.width + x) 100) := by
    rw [hdata]
    have h1 : A.foldlM (fun dd (p : ℕ × ℕ) =>
        filterCell t g.width g.height dd p.1 p.2)
          ((List.replicate (g.width * g.height) 0).set (y * g.width + x) v) =
        some ((List.replicate (g.width * g.height) 0).set (y * g.width + x) v) := by
      apply filterFold_zeros t g.width g.height ht
      intro p hp
      obtain ⟨hpH, hpW, hpne⟩ := hAmem p hp
      rw [single_data_getElem? g.width g.height x y v _
        (idx_lt_size g.width g.height p.1 p.2 hpH hpW), if_neg hpne]
    have h2 : filterCell t g.width g.height
        ((List.replicate (g.width * g.height) 0).set (y * g.width + x) v) y x =
        some (((List.replicate (g.width * g.height) 0).set (y * g.width + x) v).set
          (y * g.width + x) 100) := by
      apply filterCell_center t g.width g.height _ y x v ht hvt
      · rw [single_data_getElem? g.width g.height x y v _ hcenterlt, if_pos rfl]
      · exact center_window_reads g.width g.height x y v hW hH hx2 hxW hy2 hyH
    have h3 : B.foldlM (fun dd (p : ℕ × ℕ) =>
        filterCell t g.width g.height dd p.1 p.2)
          (((List.replicate (g.width * g.height) 0).set (y * g.width + x) v).set
            (y * g.width + x) 100) =
        some ((((List.replicate (g.width * g.height) 0).set (y * g.width + x) v).set
          (y * g.width + x) 100)) := by
      apply filterFold_zeros t g.width g.height ht
      intro p hp
      obtain ⟨hpH, hpW, hpne⟩ := hBmem p hp
      rw [List.getElem?_set_ne (fun he => hpne he.symm)]
      rw [single_data_getElem? g.width g.height x y v _
        (idx_lt_size g.width g.height p.1 p.2 hpH hpW), if_neg hpne]
    rw [filterData, hsplit, List.foldlM_append, h1]
    show ((y, x) :: B).foldlM (fun dd (p : ℕ × ℕ) =>
        filterCell t g.width g.height dd p.1 p.2)
          ((List.replicate (g.width * g.height) 0).set (y * g.width + x) v) =
        some _
    rw [List.foldlM_cons, h2]
    show B.foldlM (fun dd (p : ℕ × ℕ) =>
        filterCell t g.width g.height dd p.1 p.2)
          (((List.replicate (g.width * g.height) 0).set (y * g.width + x) v).set
            (y * g.width + x) 100) = _
    rw [h3]
  rw [FilterOccupancyGrid, hfd]

/-- Claim C9 witness: the amended claim applied to the concrete 7x7 grid
of the counterexample (center (3,3), value 80, threshold 50). -/
theorem C9_zero_neighborhood_witness :
    FilterOccupancyGrid gridC9 50 =
      some { gridC9 with data := gridC9.data.set (3 * gridC9.width + 3) 100 } :=
  C9_zero_neighborhood_keeps_occupied gridC9 50 3 3 80 (by decide) (by decide)
    (by decide) (by decide) (by decide) (by decide) (by decide)
    (by decide) (by decide)
